import Mathlib

/-!
Verification of the privileged supervisor process of `smtpfd`
(`extras/filters/smtpfd/smtpfd.c`): the filter/chain configuration model,
the configuration-distribution message protocol, reload, dispatch and the
startup argument handling, shallowly embedded as executable Lean functions.
-/

namespace Smtpfd

/-- `struct filter_conf`: one configured filter (`chain = false`, a leaf
backed by an executable) or chain (`chain = true`, an ordered list of
referenced entry names).  `argv` carries the executable path and arguments
for a leaf, the referenced names for a chain; `argc` is `argv.length`. -/
structure FilterConf where
  name : String
  chain : Bool
  argv : List String
deriving DecidableEq, Repr

/-- `struct smtpfd_conf`: the TAILQ of filter entries, insertion order
preserved. -/
abbrev SmtpfdConf := List FilterConf

/-- The messages `priv_send_config` and its helpers compose to the engine
process, identified by their `IMSG_*` type and the name payload. -/
inductive Msg where
  | reconfConf
  | reconfFilterProc (name : String)
  | reconfFilter (name : String)
  | reconfFilterNode (name : String)
  | reconfEnd
deriving DecidableEq, Repr

/-- The `TAILQ_FOREACH`/`strcmp` lookup inside `priv_send_filter_conf`:
first entry of the configuration whose `name` equals the referenced name
(the loop `break`s at the first match). -/
def lookupFilter (conf : SmtpfdConf) (nm : String) : Option FilterConf :=
  conf.find? (fun tmp => tmp.name == nm)

/-- The chain-resolution loop of `priv_send_filter_conf`, for the ordered
reference list of a chain: each name is looked up in the configuration; an
absent name is skipped; a found chain is resolved recursively; a found
leaf emits one `IMSG_RECONF_FILTER_NODE` message bearing its name.

The C recursion has no cycle guard and can diverge, so the embedding is
step-indexed: `none` means the computation did not finish within `fuel`
steps; the C call terminates with trace `ms` exactly when some fuel
returns `some ms` (results are fuel-monotone, `resolveNames_mono`). -/
def resolveNames (conf : SmtpfdConf) : Nat → List String → Option (List Msg)
  | _, [] => some []
  | fuel, nm :: rest =>
    match fuel with
    | 0 => none
    | fuel' + 1 =>
      match lookupFilter conf nm with
      | none => resolveNames conf fuel' rest
      | some tmp =>
        if tmp.chain then
          match resolveNames conf fuel' tmp.argv, resolveNames conf fuel' rest with
          | some a, some b => some (a ++ b)
          | _, _ => none
        else
          (resolveNames conf fuel' rest).map (fun b => Msg.reconfFilterNode tmp.name :: b)

/-- `priv_send_filter_conf(conf, f)`: for a chain, resolve its reference
list; for a leaf, compose a single `IMSG_RECONF_FILTER_NODE` message with
the leaf's own name (the `else` branch of the C function). -/
def priv_send_filter_conf (conf : SmtpfdConf) (fuel : Nat) (f : FilterConf) :
    Option (List Msg) :=
  if f.chain then resolveNames conf fuel f.argv
  else some [Msg.reconfFilterNode f.name]

/-- The second `TAILQ_FOREACH` loop of `priv_send_config`: for every entry
(leaf and chain alike, in insertion order) an `IMSG_RECONF_FILTER`
declaration carrying the entry's name, followed by the output of
`priv_send_filter_conf` for that entry. -/
def sendDeclares (conf : SmtpfdConf) (fuel : Nat) : List FilterConf → Option (List Msg)
  | [] => some []
  | f :: rest =>
    match priv_send_filter_conf conf fuel f, sendDeclares conf fuel rest with
    | some ms, some rs => some (Msg.reconfFilter f.name :: (ms ++ rs))
    | _, _ => none

/-- The message trace of `priv_send_config(xconf)` when every
`proc_compose` succeeds: the `IMSG_RECONF_CONF` begin marker; one
`IMSG_RECONF_FILTER_PROC` spawn message per non-chain entry (the first
`TAILQ_FOREACH` loop, `priv_send_filter_proc`'s parent branch); the
declaration loop; the `IMSG_RECONF_END` marker. -/
def priv_send_config (fuel : Nat) (conf : SmtpfdConf) : Option (List Msg) :=
  (sendDeclares conf fuel conf).map (fun ds =>
    Msg.reconfConf
      :: (((conf.filter fun f => !f.chain).map fun f => Msg.reconfFilterProc f.name)
        ++ ds ++ [Msg.reconfEnd]))

/-- The leaf entry `virus` with argv `["clamfilter"]` of the end-to-end
example configuration. -/
def virusEntry : FilterConf := { name := "virus", chain := false, argv := ["clamfilter"] }

/-- The chain entry `all` referencing `["virus"]` of the end-to-end
example configuration. -/
def allEntry : FilterConf := { name := "all", chain := true, argv := ["virus"] }

/-- The end-to-end example configuration: one leaf `virus`, one chain
`all` over `["virus"]`. -/
def virusAllConf : SmtpfdConf := [virusEntry, allEntry]

/-- Resolver equation: the empty reference list resolves to the empty
trace at any fuel. -/
theorem resolveNames_nil (conf : SmtpfdConf) (fuel : Nat) :
    resolveNames conf fuel [] = some [] := by cases fuel <;> rfl

/-- Resolver equation: a nonempty reference list needs fuel. -/
theorem resolveNames_zero (conf : SmtpfdConf) (nm : String) (rest : List String) :
    resolveNames conf 0 (nm :: rest) = none := rfl

/-- Resolver equation: an unresolvable head name is skipped. -/
theorem resolveNames_cons_absent (conf : SmtpfdConf) (fuel : Nat) (nm : String)
    (rest : List String) (h : lookupFilter conf nm = none) :
    resolveNames conf (fuel + 1) (nm :: rest) = resolveNames conf fuel rest := by
  simp only [resolveNames, h]

/-- Resolver equation: a head name resolving to a chain is resolved
recursively before the remaining names. -/
theorem resolveNames_cons_chain (conf : SmtpfdConf) (fuel : Nat) (nm : String)
    (rest : List String) (tmp : FilterConf) (h : lookupFilter conf nm = some tmp)
    (hc : tmp.chain = true) :
    resolveNames conf (fuel + 1) (nm :: rest) =
      match resolveNames conf fuel tmp.argv, resolveNames conf fuel rest with
      | some a, some b => some (a ++ b)
      | _, _ => none := by
  simp only [resolveNames, h, hc, if_true]

/-- Resolver equation: a head name resolving to a leaf emits one node
message. -/
theorem resolveNames_cons_leaf (conf : SmtpfdConf) (fuel : Nat) (nm : String)
    (rest : List String) (tmp : FilterConf) (h : lookupFilter conf nm = some tmp)
    (hc : tmp.chain = false) :
    resolveNames conf (fuel + 1) (nm :: rest) =
      (resolveNames conf fuel rest).map (fun b => Msg.reconfFilterNode tmp.name :: b) := by
  simp only [resolveNames, h, hc, if_false, Bool.false_eq_true]

/-- A resolution that finishes within `fuel` steps finishes, with the same
trace, within `fuel + 1` steps. -/
theorem resolveNames_mono_succ (conf : SmtpfdConf) :
    ∀ fuel names ms, resolveNames conf fuel names = some ms →
      resolveNames conf (fuel + 1) names = some ms := by
  intro fuel
  induction fuel with
  | zero =>
    intro names ms h
    match names with
    | [] => exact h
    | nm :: rest => rw [resolveNames_zero] at h; exact absurd h (by simp)
  | succ f ih =>
    intro names ms h
    match names with
    | [] => exact h
    | nm :: rest =>
      cases hl : lookupFilter conf nm with
      | none =>
        rw [resolveNames_cons_absent conf f nm rest hl] at h
        rw [resolveNames_cons_absent conf (f + 1) nm rest hl]
        exact ih rest ms h
      | some tmp =>
        cases hc : tmp.chain with
        | false =>
          rw [resolveNames_cons_leaf conf f nm rest tmp hl hc] at h
          rw [resolveNames_cons_leaf conf (f + 1) nm rest tmp hl hc]
          rw [Option.map_eq_some'] at h ⊢
          obtain ⟨b, hb, hms⟩ := h
          exact ⟨b, ih rest b hb, hms⟩
        | true =>
          rw [resolveNames_cons_chain conf f nm rest tmp hl hc] at h
          rw [resolveNames_cons_chain conf (f + 1) nm rest tmp hl hc]
          cases ha : resolveNames conf f tmp.argv with
          | none => rw [ha] at h; simp at h
          | some a =>
            rw [ha] at h
            cases hb : resolveNames conf f rest with
            | none => rw [hb] at h; simp at h
            | some b =>
              rw [hb] at h
              rw [ih tmp.argv a ha, ih rest b hb]
              exact h

/-- Fuel monotonicity of the resolver. -/
theorem resolveNames_mono (conf : SmtpfdConf) {fuel fuel' : Nat} (hle : fuel ≤ fuel')
    {names : List String} {ms : List Msg} (h : resolveNames conf fuel names = some ms) :
    resolveNames conf fuel' names = some ms := by
  induction fuel' with
  | zero => cases Nat.le_zero.mp hle; exact h
  | succ k ih =>
    rcases Nat.lt_or_ge fuel (k + 1) with hlt | hge
    · exact resolveNames_mono_succ conf k names ms (ih (Nat.lt_succ_iff.mp hlt))
    · cases Nat.le_antisymm hle hge; exact h

/-- Modelled from the spec: the fully-flattened, order-preserving,
depth-first resolution of a chain's ordered reference list down to leaf
names — a referenced leaf contributes its name, a referenced chain
contributes its own flattening, a name absent from the configuration is
skipped.  Step-indexed like the resolver it specifies. -/
def flattenNames (conf : SmtpfdConf) : Nat → List String → Option (List String)
  | _, [] => some []
  | fuel, nm :: rest =>
    match fuel with
    | 0 => none
    | fuel' + 1 =>
      match lookupFilter conf nm with
      | none => flattenNames conf fuel' rest
      | some tmp =>
        if tmp.chain then
          match flattenNames conf fuel' tmp.argv, flattenNames conf fuel' rest with
          | some a, some b => some (a ++ b)
          | _, _ => none
        else
          (flattenNames conf fuel' rest).map (fun b => tmp.name :: b)

/-- Flattening equation: an unresolvable head name is skipped. -/
theorem flattenNames_cons_absent (conf : SmtpfdConf) (fuel : Nat) (nm : String)
    (rest : List String) (h : lookupFilter conf nm = none) :
    flattenNames conf (fuel + 1) (nm :: rest) = flattenNames conf fuel rest := by
  simp only [flattenNames, h]

/-- Flattening equation: a head name naming a chain flattens recursively. -/
theorem flattenNames_cons_chain (conf : SmtpfdConf) (fuel : Nat) (nm : String)
    (rest : List String) (tmp : FilterConf) (h : lookupFilter conf nm = some tmp)
    (hc : tmp.chain = true) :
    flattenNames conf (fuel + 1) (nm :: rest) =
      match flattenNames conf fuel tmp.argv, flattenNames conf fuel rest with
      | some a, some b => some (a ++ b)
      | _, _ => none := by
  simp only [flattenNames, h, hc, if_true]

/-- Flattening equation: a head name naming a leaf contributes the leaf's
name. -/
theorem flattenNames_cons_leaf (conf : SmtpfdConf) (fuel : Nat) (nm : String)
    (rest : List String) (tmp : FilterConf) (h : lookupFilter conf nm = some tmp)
    (hc : tmp.chain = false) :
    flattenNames conf (fuel + 1) (nm :: rest) =
      (flattenNames conf fuel rest).map (fun b => tmp.name :: b) := by
  simp only [flattenNames, h, hc, if_false, Bool.false_eq_true]

/-- The resolver's trace is exactly the spec-side flattening, one
`IMSG_RECONF_FILTER_NODE` message per resolved leaf name, in order. -/
theorem resolveNames_eq_flatten (conf : SmtpfdConf) :
    ∀ fuel names, resolveNames conf fuel names =
      (flattenNames conf fuel names).map (List.map Msg.reconfFilterNode) := by
  intro fuel
  induction fuel with
  | zero =>
    intro names
    match names with
    | [] => rfl
    | nm :: rest => rfl
  | succ f ih =>
    intro names
    match names with
    | [] => rfl
    | nm :: rest =>
      cases hl : lookupFilter conf nm with
      | none =>
        rw [resolveNames_cons_absent conf f nm rest hl,
          flattenNames_cons_absent conf f nm rest hl]
        exact ih rest
      | some tmp =>
        cases hc : tmp.chain with
        | false =>
          rw [resolveNames_cons_leaf conf f nm rest tmp hl hc,
            flattenNames_cons_leaf conf f nm rest tmp hl hc, ih rest]
          cases flattenNames conf f rest <;> rfl
        | true =>
          rw [resolveNames_cons_chain conf f nm rest tmp hl hc,
            flattenNames_cons_chain conf f nm rest tmp hl hc, ih tmp.argv, ih rest]
          cases flattenNames conf f tmp.argv <;> cases flattenNames conf f rest <;>
            simp

/-- C1 counterexample: on the configuration with leaf `virus` and chain
`all` over `["virus"]`, `priv_send_config` does not produce the claimed
sequence begin; spawn(virus); declare(virus); declare(all); member(virus);
end — because the declaration of the leaf `virus` is itself followed by a
`member(virus)` message (the `else` branch of `priv_send_filter_conf`). -/
theorem C1_counterexample :
    priv_send_config 2 virusAllConf ≠
      some [Msg.reconfConf, Msg.reconfFilterProc "virus",
            Msg.reconfFilter "virus",
            Msg.reconfFilter "all", Msg.reconfFilterNode "virus",
            Msg.reconfEnd] := by
  decide

/-- C1 (amended): for the configuration with exactly the leaf `virus`
(argv `["clamfilter"]`) followed by the chain `all` over `["virus"]`,
`priv_send_config` sends exactly, in order: the begin marker
(`IMSG_RECONF_CONF`); spawn(virus); declare(virus) followed by
member(virus) — for a leaf entry the resolution step after its own
declaration emits exactly one member message bearing the leaf's own
name — then declare(all) followed by member(virus); and the end marker
(`IMSG_RECONF_END`).  Stated for every sufficient fuel bound `n + 2`. -/
theorem C1_virusAll_trace : ∀ n : Nat,
    priv_send_config (n + 2) virusAllConf =
      some [Msg.reconfConf, Msg.reconfFilterProc "virus",
            Msg.reconfFilter "virus", Msg.reconfFilterNode "virus",
            Msg.reconfFilter "all", Msg.reconfFilterNode "virus",
            Msg.reconfEnd] := by
  intro n
  rfl

/-- Leaf `A` of the nested-chain example configuration. -/
def leafA : FilterConf := { name := "A", chain := false, argv := ["/bin/fa"] }

/-- Leaf `C` of the nested-chain example configuration. -/
def leafC : FilterConf := { name := "C", chain := false, argv := ["/bin/fc"] }

/-- Leaf `D` of the nested-chain example configuration. -/
def leafD : FilterConf := { name := "D", chain := false, argv := ["/bin/fd"] }

/-- Chain `B` over `["C", "D"]` of the nested-chain example
configuration. -/
def chainB : FilterConf := { name := "B", chain := true, argv := ["C", "D"] }

/-- Chain `X` over `["A", "B"]` of the nested-chain example
configuration. -/
def chainX : FilterConf := { name := "X", chain := true, argv := ["A", "B"] }

/-- The nested-chain example configuration: `X` references `[A, B]` and
`B` is itself a chain over `[C, D]`. -/
def nestedConf : SmtpfdConf := [chainX, leafA, chainB, leafC, leafD]

/-- C2: for every chain entry, the sequence of member
(`IMSG_RECONF_FILTER_NODE`) messages sent to the engine after that
chain's declaration equals the fully-flattened, order-preserving,
depth-first resolution of the chain's ordered reference list down to leaf
names (the equality holds at every fuel level, with no resolvability
hypothesis, since resolver and flattening skip absent names alike). -/
theorem C2_chain_members_flatten (conf : SmtpfdConf) (f : FilterConf)
    (h : f.chain = true) (fuel : Nat) :
    priv_send_filter_conf conf fuel f =
      (flattenNames conf fuel f.argv).map (List.map Msg.reconfFilterNode) := by
  unfold priv_send_filter_conf
  rw [if_pos h]
  exact resolveNames_eq_flatten conf fuel f.argv

/-- C2 witness: the chain `X` over `[A, B]` with `B` a chain over
`[C, D]` delivers exactly the members `[A, C, D]`. -/
theorem C2_chain_members_flatten_witness :
    chainX.chain = true ∧
    priv_send_filter_conf nestedConf 5 chainX =
      (flattenNames nestedConf 5 chainX.argv).map (List.map Msg.reconfFilterNode) ∧
    flattenNames nestedConf 5 chainX.argv = some ["A", "C", "D"] :=
  ⟨rfl, C2_chain_members_flatten nestedConf chainX rfl 5, by decide⟩

/-- The name carried by a spawn (`IMSG_RECONF_FILTER_PROC`) message, if
the message is one. -/
def spawnName : Msg → Option String
  | .reconfFilterProc n => some n
  | _ => none

/-- The name carried by a declaration (`IMSG_RECONF_FILTER`) message, if
the message is one. -/
def declareName : Msg → Option String
  | .reconfFilter n => some n
  | _ => none

/-- Every message the resolver emits is a member
(`IMSG_RECONF_FILTER_NODE`) message. -/
theorem resolveNames_mem_node (conf : SmtpfdConf) :
    ∀ fuel names ms, resolveNames conf fuel names = some ms →
      ∀ m ∈ ms, ∃ n, m = Msg.reconfFilterNode n := by
  intro fuel
  induction fuel with
  | zero =>
    intro names ms h
    match names with
    | [] =>
      rw [resolveNames_nil, Option.some.injEq] at h
      subst h
      intro m hm
      cases hm
    | nm :: rest => rw [resolveNames_zero] at h; exact absurd h (by simp)
  | succ f ih =>
    intro names ms h
    match names with
    | [] =>
      rw [resolveNames_nil, Option.some.injEq] at h
      subst h
      intro m hm
      cases hm
    | nm :: rest =>
      cases hl : lookupFilter conf nm with
      | none =>
        rw [resolveNames_cons_absent conf f nm rest hl] at h
        exact ih rest ms h
      | some tmp =>
        cases hc : tmp.chain with
        | false =>
          rw [resolveNames_cons_leaf conf f nm rest tmp hl hc,
            Option.map_eq_some'] at h
          obtain ⟨b, hb, hms⟩ := h
          intro m hm
          rw [← hms] at hm
          rcases List.mem_cons.mp hm with h1 | h2
          · exact ⟨tmp.name, h1⟩
          · exact ih rest b hb m h2
        | true =>
          rw [resolveNames_cons_chain conf f nm rest tmp hl hc] at h
          cases ha : resolveNames conf f tmp.argv with
          | none => rw [ha] at h; simp at h
          | some a =>
            rw [ha] at h
            cases hb : resolveNames conf f rest with
            | none => rw [hb] at h; simp at h
            | some b =>
              rw [hb] at h
              rw [Option.some.injEq] at h
              subst h
              intro m hm
              rcases List.mem_append.mp hm with h1 | h2
              · exact ih tmp.argv a ha m h1
              · exact ih rest b hb m h2

/-- Every message `priv_send_filter_conf` emits is a member message. -/
theorem priv_send_filter_conf_mem_node (conf : SmtpfdConf) (fuel : Nat)
    (f : FilterConf) (ms : List Msg) (h : priv_send_filter_conf conf fuel f = some ms) :
    ∀ m ∈ ms, ∃ n, m = Msg.reconfFilterNode n := by
  unfold priv_send_filter_conf at h
  by_cases hc : f.chain = true
  · rw [if_pos hc] at h
    exact resolveNames_mem_node conf fuel f.argv ms h
  · rw [if_neg hc, Option.some.injEq] at h
    subst h
    intro m hm
    rcases List.mem_cons.mp hm with h1 | h2
    · exact ⟨f.name, h1⟩
    · cases h2

/-- A list of member messages contributes no spawn message. -/
theorem filterMap_spawnName_nodes {ms : List Msg}
    (h : ∀ m ∈ ms, ∃ n, m = Msg.reconfFilterNode n) :
    ms.filterMap spawnName = [] := by
  rw [List.filterMap_eq_nil_iff]
  intro m hm
  obtain ⟨n, rfl⟩ := h m hm
  rfl

/-- A list of member messages contributes no declaration message. -/
theorem filterMap_declareName_nodes {ms : List Msg}
    (h : ∀ m ∈ ms, ∃ n, m = Msg.reconfFilterNode n) :
    ms.filterMap declareName = [] := by
  rw [List.filterMap_eq_nil_iff]
  intro m hm
  obtain ⟨n, rfl⟩ := h m hm
  rfl

/-- The declaration loop contributes no spawn message and exactly one
declaration, carrying the entry's name, per entry in order. -/
theorem sendDeclares_filterMap (conf : SmtpfdConf) (fuel : Nat) :
    ∀ l ds, sendDeclares conf fuel l = some ds →
      ds.filterMap spawnName = [] ∧
      ds.filterMap declareName = l.map FilterConf.name := by
  intro l
  induction l with
  | nil =>
    intro ds h
    rw [show sendDeclares conf fuel [] = some [] from rfl, Option.some.injEq] at h
    subst h
    simp
  | cons f rest ih =>
    intro ds h
    simp only [sendDeclares] at h
    cases hf : priv_send_filter_conf conf fuel f with
    | none => rw [hf] at h; simp at h
    | some msf =>
      rw [hf] at h
      cases hr : sendDeclares conf fuel rest with
      | none => rw [hr] at h; simp at h
      | some rs =>
        rw [hr] at h
        rw [Option.some.injEq] at h
        subst h
        have hnode := priv_send_filter_conf_mem_node conf fuel f msf hf
        obtain ⟨ihs, ihd⟩ := ih rs hr
        constructor
        · simp [List.filterMap_cons, List.filterMap_append, spawnName, ihs,
            filterMap_spawnName_nodes hnode]
        · simp [List.filterMap_cons, List.filterMap_append, declareName, ihd,
            filterMap_declareName_nodes hnode]

/-- The spawn loop's messages carry exactly the names they were built
from. -/
theorem filterMap_spawnName_procs (l : List FilterConf) :
    List.filterMap (spawnName ∘ fun f => Msg.reconfFilterProc f.name) l =
      l.map FilterConf.name := by
  induction l with
  | nil => rfl
  | cons f rest ih => simp [Function.comp, spawnName, ih]

/-- The spawn loop's messages contribute no declaration message. -/
theorem filterMap_declareName_procs (l : List FilterConf) :
    List.filterMap (declareName ∘ fun f => Msg.reconfFilterProc f.name) l = [] := by
  induction l with
  | nil => rfl
  | cons f rest ih => simp [Function.comp, declareName, ih]

/-- C3: for every configuration, `priv_send_config` composes exactly one
spawn (`IMSG_RECONF_FILTER_PROC`) message per leaf entry — never for a
chain entry, and regardless of how many chains reference the leaf — and
exactly one declaration (`IMSG_RECONF_FILTER`) message per entry (leaves
and chains alike), both in the configuration's insertion order. -/
theorem C3_spawn_once_declare_each (fuel : Nat) (conf : SmtpfdConf) (ms : List Msg)
    (h : priv_send_config fuel conf = some ms) :
    ms.filterMap spawnName = (conf.filter fun f => !f.chain).map FilterConf.name ∧
    ms.filterMap declareName = conf.map FilterConf.name := by
  unfold priv_send_config at h
  cases hd : sendDeclares conf fuel conf with
  | none => rw [hd] at h; simp at h
  | some ds =>
    rw [hd] at h
    rw [Option.map_some', Option.some.injEq] at h
    subst h
    obtain ⟨hs, hdc⟩ := sendDeclares_filterMap conf fuel conf ds hd
    constructor
    · simp [List.filterMap_cons, List.filterMap_append, spawnName, hs,
        filterMap_spawnName_procs]
    · simp [List.filterMap_cons, List.filterMap_append, declareName, hdc,
        filterMap_declareName_procs]

/-- C3 witness: the accounting evaluated on the `virus`/`all` example
configuration. -/
theorem C3_spawn_once_declare_each_witness :
    priv_send_config 2 virusAllConf =
      some [Msg.reconfConf, Msg.reconfFilterProc "virus",
            Msg.reconfFilter "virus", Msg.reconfFilterNode "virus",
            Msg.reconfFilter "all", Msg.reconfFilterNode "virus",
            Msg.reconfEnd] ∧
    ([Msg.reconfConf, Msg.reconfFilterProc "virus",
      Msg.reconfFilter "virus", Msg.reconfFilterNode "virus",
      Msg.reconfFilter "all", Msg.reconfFilterNode "virus",
      Msg.reconfEnd].filterMap spawnName =
        (virusAllConf.filter fun f => !f.chain).map FilterConf.name ∧
     [Msg.reconfConf, Msg.reconfFilterProc "virus",
      Msg.reconfFilter "virus", Msg.reconfFilterNode "virus",
      Msg.reconfFilter "all", Msg.reconfFilterNode "virus",
      Msg.reconfEnd].filterMap declareName = virusAllConf.map FilterConf.name) :=
  ⟨by decide, C3_spawn_once_declare_each 2 virusAllConf _ (by decide)⟩

/-- `priv_reload()`: parse the configuration file again (outcome given by
`parse`, `none` on failure, `some xconf` on success) and, on success,
attempt to distribute the fresh configuration (`priv_send_config`'s
return value, which depends on external `proc_compose` outcomes, given by
the `sendOk` oracle); only on successful distribution is the previous
active configuration cleared and the new one installed.  Returns the C
function's return value paired with the resulting active `env`. -/
def priv_reload (parse : Option SmtpfdConf) (sendOk : SmtpfdConf → Bool)
    (env : SmtpfdConf) : Int × SmtpfdConf :=
  match parse with
  | none => (-1, env)
  | some xconf => if sendOk xconf then (0, xconf) else (-1, env)

/-- C4: `priv_reload` returns failure and leaves the active configuration
unchanged when parsing fails; on parse success it installs the fresh
configuration exactly when distribution succeeds and otherwise returns
failure with the active configuration untouched; in particular the active
configuration changes only on a fully successful reload. -/
theorem C4_reload_transaction (parse : Option SmtpfdConf)
    (sendOk : SmtpfdConf → Bool) (env : SmtpfdConf) :
    (parse = none → priv_reload parse sendOk env = (-1, env)) ∧
    (∀ xconf, parse = some xconf →
      (sendOk xconf = true → priv_reload parse sendOk env = (0, xconf)) ∧
      (sendOk xconf = false → priv_reload parse sendOk env = (-1, env))) ∧
    ((priv_reload parse sendOk env).1 = 0 ∨ (priv_reload parse sendOk env).2 = env) := by
  refine ⟨?_, ?_, ?_⟩
  · intro h; subst h; rfl
  · intro xconf h
    subst h
    constructor
    · intro hs; simp [priv_reload, hs]
    · intro hs; simp [priv_reload, hs]
  · cases parse with
    | none => right; rfl
    | some xconf =>
      cases hs : sendOk xconf with
      | false => right; simp [priv_reload, hs]
      | true => left; simp [priv_reload, hs]

/-- C4 witness: a reload whose distribution step fails returns -1 and
leaves the active configuration untouched. -/
theorem C4_reload_transaction_witness :
    priv_reload (some virusAllConf) (fun _ => false) nestedConf = (-1, nestedConf) :=
  ((C4_reload_transaction (some virusAllConf) (fun _ => false) nestedConf).2.1
    virusAllConf rfl).2 rfl

/-- The self-referential chain `a` over `["a"]`: a cyclic configuration. -/
def cycleEntry : FilterConf := { name := "a", chain := true, argv := ["a"] }

/-- The cyclic configuration containing only the chain `a` over `["a"]`. -/
def cycleConf : SmtpfdConf := [cycleEntry]

/-- On the cyclic configuration the resolver's reference list never
resolves within any fuel bound. -/
theorem resolveNames_cycle_none :
    ∀ fuel, resolveNames cycleConf fuel ["a"] = none := by
  intro fuel
  induction fuel with
  | zero => rfl
  | succ f ih =>
    rw [resolveNames_cons_chain cycleConf f "a" [] cycleEntry rfl rfl]
    show (match resolveNames cycleConf f ["a"], resolveNames cycleConf f [] with
      | some a, some b => some (a ++ b)
      | _, _ => none) = none
    rw [ih]

/-- C5 evaluation at the failing input: the recursive chain resolution of
`priv_send_filter_conf` on the cyclic configuration (chain `a`
referencing itself) does not complete within any number of steps — the C
function, which has no cycle guard, recurses without bound there, against
the spec's requirement that the resolver must not infinite-loop. -/
theorem C5_cycle_no_bound :
    ∀ fuel, priv_send_filter_conf cycleConf fuel cycleEntry = none := by
  intro fuel
  exact resolveNames_cycle_none fuel

/-- A file-descriptor table: descriptor number to the identity of the
open object it denotes, `none` when closed. -/
abbrev FdTable := Nat → Option Nat

/-- `dup2(oldfd, newfd)`: afterwards `newfd` denotes what `oldfd`
denotes. -/
def dup2 (t : FdTable) (oldfd newfd : Nat) : FdTable :=
  fun n => if n = newfd then t oldfd else t n

/-- `closefrom(lowfd)`: every descriptor numbered `lowfd` or above is
closed. -/
def closefrom (t : FdTable) (lowfd : Nat) : FdTable :=
  fun n => if lowfd ≤ n then none else t n

/-- The process image `execvp` installs: the executable path and the new
process's argument vector. -/
structure ExecImage where
  path : String
  args : List String
deriving DecidableEq, Repr

/-- The child branch of `priv_send_filter_proc(f)`: from the inherited
descriptor table `t`, with the channel's local endpoint at descriptor
`sp0`, the child runs `dup2(sp[0], 3)`, then `closefrom(4)`, then
`execvp(f->argv[0], f->argv + 1)`: the executable is `argv[0]` and the
new process's argument vector is `argv` without its first element. -/
def priv_send_filter_proc_child (t : FdTable) (sp0 : Nat) (f : FilterConf) :
    FdTable × ExecImage :=
  (closefrom (dup2 t sp0 3) 4,
   { path := f.argv.headD "", args := f.argv.drop 1 })

/-- C6 counterexample: for the leaf `virus` with argv `["clamfilter"]`,
the child's exec call does not receive `f->argv` as the new argument
vector — the code passes `f->argv + 1`, here the empty vector. -/
theorem C6_counterexample :
    ((priv_send_filter_proc_child (fun _ => none) 5 virusEntry).2 ≠
      { path := "clamfilter", args := ["clamfilter"] }) ∧
    (priv_send_filter_proc_child (fun _ => none) 5 virusEntry).2 =
      { path := "clamfilter", args := ([] : List String) } := by
  constructor <;> decide

/-- C6 (amended): for every leaf entry `f`, the child binds the channel
endpoint to descriptor 3, closes every descriptor from 4 upward while
leaving descriptors below 3 untouched, and replaces its image executing
`f.argv[0]` — but with `f->argv + 1`, the configured vector minus its
first element, as the new process's argument vector, not the full
`f->argv`. -/
theorem C6_child_exec (t : FdTable) (sp0 : Nat) (f : FilterConf) :
    (priv_send_filter_proc_child t sp0 f).1 3 = t sp0 ∧
    (∀ n, 4 ≤ n → (priv_send_filter_proc_child t sp0 f).1 n = none) ∧
    (∀ n, n < 3 → (priv_send_filter_proc_child t sp0 f).1 n = t n) ∧
    (priv_send_filter_proc_child t sp0 f).2.path = f.argv.headD "" ∧
    (priv_send_filter_proc_child t sp0 f).2.args = f.argv.drop 1 := by
  refine ⟨?_, ?_, ?_, rfl, rfl⟩
  · show (if 4 ≤ 3 then none else if 3 = 3 then t sp0 else t 3) = t sp0
    rw [if_neg (by omega), if_pos rfl]
  · intro n hn
    show (if 4 ≤ n then none else if n = 3 then t sp0 else t n) = none
    rw [if_pos hn]
  · intro n hn
    show (if 4 ≤ n then none else if n = 3 then t sp0 else t n) = t n
    rw [if_neg (by omega), if_neg (by omega)]

/-- C6 witness: the child's descriptor table and exec image evaluated on
the `virus` leaf with the channel endpoint at descriptor 5. -/
theorem C6_child_exec_witness :
    (priv_send_filter_proc_child (fun k => some k) 5 virusEntry).1 3 = some 5 ∧
    (priv_send_filter_proc_child (fun k => some k) 5 virusEntry).1 7 = none ∧
    (priv_send_filter_proc_child (fun k => some k) 5 virusEntry).1 0 = some 0 ∧
    (priv_send_filter_proc_child (fun k => some k) 5 virusEntry).2.path = "clamfilter" ∧
    (priv_send_filter_proc_child (fun k => some k) 5 virusEntry).2.args = [] := by
  obtain ⟨h1, h2, h3, h4, h5⟩ := C6_child_exec (fun k => some k) 5 virusEntry
  exact ⟨h1, h2 7 (by omega), h3 0 (by omega), h4, h5⟩

/-- The message kinds the frontend channel can deliver to the
supervisor's dispatch handler (`imsg->hdr.type`). -/
inductive FrontendImsg where
  | ctlReload
  | ctlLogVerbose (v : Int)
  | ctlShowMainInfo
  | other (t : Nat)
deriving DecidableEq, Repr

/-- The supervisor's mutable state visible to the dispatch handlers: the
active configuration `env`, the process-wide log verbosity, and whether
`event_loopexit` has been requested. -/
structure PrivState where
  env : SmtpfdConf
  verbose : Int
  loopExit : Bool
deriving DecidableEq, Repr

/-- `priv_dispatch_frontend`: the channel-closed sentinel (`imsg ==
NULL`) calls `event_loopexit`; `IMSG_CTL_RELOAD` runs `priv_reload`
(parse and distribution outcomes as in `priv_reload`);
`IMSG_CTL_LOG_VERBOSE` updates the verbosity from the payload;
`IMSG_CTL_SHOW_MAIN_INFO` only replies to the frontend; an unrecognized
type is logged and ignored. -/
def priv_dispatch_frontend (parse : Option SmtpfdConf) (sendOk : SmtpfdConf → Bool)
    (st : PrivState) (imsg : Option FrontendImsg) : PrivState :=
  match imsg with
  | none => { st with loopExit := true }
  | some .ctlReload => { st with env := (priv_reload parse sendOk st.env).2 }
  | some (.ctlLogVerbose v) => { st with verbose := v }
  | some .ctlShowMainInfo => st
  | some (.other _) => st

/-- `priv_dispatch_engine`: the channel-closed sentinel calls
`event_loopexit`; every message type is unrecognized, logged and
ignored. -/
def priv_dispatch_engine (st : PrivState) (imsg : Option Nat) : PrivState :=
  match imsg with
  | none => { st with loopExit := true }
  | some _ => st

/-- One inbound event of the supervisor's event loop: a message — or the
closure sentinel `none` — on the frontend or the engine channel. -/
inductive Event where
  | frontend (m : Option FrontendImsg)
  | engine (m : Option Nat)

/-- Route one event to the handler registered for its channel. -/
def dispatchEvent (parse : Option SmtpfdConf) (sendOk : SmtpfdConf → Bool)
    (st : PrivState) : Event → PrivState
  | .frontend m => priv_dispatch_frontend parse sendOk st m
  | .engine m => priv_dispatch_engine st m

/-- `event_dispatch()`: deliver pending events to the registered handlers
until `event_loopexit` has been requested or no event remains. -/
def event_dispatch (parse : Option SmtpfdConf) (sendOk : SmtpfdConf → Bool)
    (st : PrivState) : List Event → PrivState
  | [] => st
  | e :: rest =>
    let st' := dispatchEvent parse sendOk st e
    if st'.loopExit then st' else event_dispatch parse sendOk st' rest

/-- The observable outcome of `priv_shutdown()`: the active configuration
is discarded, the control-socket artifact removed, the process exits with
status 0. -/
structure ShutdownOutcome where
  configCleared : Bool
  controlSocketRemoved : Bool
  exitCode : Nat
deriving DecidableEq, Repr

/-- `priv_shutdown()` as it always behaves once reached. -/
def priv_shutdown : ShutdownOutcome :=
  { configCleared := true, controlSocketRemoved := true, exitCode := 0 }

/-- The tail of `main`: `event_dispatch()` followed unconditionally by
`priv_shutdown()`. -/
def main_loop (parse : Option SmtpfdConf) (sendOk : SmtpfdConf → Bool)
    (st : PrivState) (evs : List Event) : PrivState × ShutdownOutcome :=
  (event_dispatch parse sendOk st evs, priv_shutdown)

/-- Unfolding of one event-loop step. -/
theorem event_dispatch_cons (parse : Option SmtpfdConf) (sendOk : SmtpfdConf → Bool)
    (st : PrivState) (e : Event) (rest : List Event) :
    event_dispatch parse sendOk st (e :: rest) =
      if (dispatchEvent parse sendOk st e).loopExit then dispatchEvent parse sendOk st e
      else event_dispatch parse sendOk (dispatchEvent parse sendOk st e) rest := rfl

/-- Whatever history precedes it, a closure sentinel on either channel
leaves the event loop with the exit request set. -/
theorem event_dispatch_closure (parse : Option SmtpfdConf) (sendOk : SmtpfdConf → Bool)
    (c : Event) (hc : c = Event.frontend none ∨ c = Event.engine none) :
    ∀ evs st, (event_dispatch parse sendOk st (evs ++ [c])).loopExit = true := by
  intro evs
  induction evs with
  | nil =>
    intro st
    rcases hc with rfl | rfl
    · rw [List.nil_append, event_dispatch_cons]
      simp [dispatchEvent, priv_dispatch_frontend, event_dispatch]
    · rw [List.nil_append, event_dispatch_cons]
      simp [dispatchEvent, priv_dispatch_engine, event_dispatch]
  | cons e rest ih =>
    intro st
    rw [List.cons_append, event_dispatch_cons]
    by_cases h : (dispatchEvent parse sendOk st e).loopExit = true
    · rw [if_pos h]; exact h
    · rw [if_neg h]; exact ih _

/-- C7: for each of the two retained channels, the registered dispatch
handler invoked with the channel-closed sentinel (null message) requests
event-loop termination, and, for every message history preceding the
closure, the event loop then finishes with the exit request set and the
supervisor executes `priv_shutdown` (which `main` calls unconditionally
once `event_dispatch` returns). -/
theorem C7_closure_runs_shutdown (parse : Option SmtpfdConf)
    (sendOk : SmtpfdConf → Bool) (st : PrivState) (hist : List Event) :
    (priv_dispatch_frontend parse sendOk st none).loopExit = true ∧
    (priv_dispatch_engine st none).loopExit = true ∧
    (main_loop parse sendOk st (hist ++ [Event.frontend none])).1.loopExit = true ∧
    (main_loop parse sendOk st (hist ++ [Event.engine none])).1.loopExit = true ∧
    (main_loop parse sendOk st (hist ++ [Event.frontend none])).2 = priv_shutdown ∧
    (main_loop parse sendOk st (hist ++ [Event.engine none])).2 = priv_shutdown := by
  refine ⟨rfl, rfl, ?_, ?_, rfl, rfl⟩
  · exact event_dispatch_closure parse sendOk _ (Or.inl rfl) hist st
  · exact event_dispatch_closure parse sendOk _ (Or.inr rfl) hist st

/-- The terminating behaviour of the C resolver: the trace it delivers
when the recursion completes (within some number of steps). -/
def resolvesTo (conf : SmtpfdConf) (names : List String) (ms : List Msg) : Prop :=
  ∃ fuel, resolveNames conf fuel names = some ms

/-- Removing a name absent from the configuration from anywhere in a
reference list does not change a successful resolution. -/
theorem resolveNames_skip_absent (conf : SmtpfdConf) {nm : String}
    (h : lookupFilter conf nm = none) :
    ∀ fuel pre post ms, resolveNames conf fuel (pre ++ nm :: post) = some ms →
      resolveNames conf fuel (pre ++ post) = some ms := by
  intro fuel
  induction fuel with
  | zero =>
    intro pre post ms hres
    cases pre with
    | nil => rw [List.nil_append, resolveNames_zero] at hres; exact absurd hres (by simp)
    | cons p pre' =>
      rw [List.cons_append, resolveNames_zero] at hres
      exact absurd hres (by simp)
  | succ f ih =>
    intro pre post ms hres
    cases pre with
    | nil =>
      rw [List.nil_append] at hres ⊢
      rw [resolveNames_cons_absent conf f nm post h] at hres
      exact resolveNames_mono_succ conf f post ms hres
    | cons p pre' =>
      rw [List.cons_append] at hres ⊢
      cases hl : lookupFilter conf p with
      | none =>
        rw [resolveNames_cons_absent conf f p _ hl] at hres
        rw [resolveNames_cons_absent conf f p _ hl]
        exact ih pre' post ms hres
      | some tmp =>
        cases hc : tmp.chain with
        | false =>
          rw [resolveNames_cons_leaf conf f p _ tmp hl hc] at hres
          rw [resolveNames_cons_leaf conf f p _ tmp hl hc]
          rw [Option.map_eq_some'] at hres ⊢
          obtain ⟨b, hb, hms⟩ := hres
          exact ⟨b, ih pre' post b hb, hms⟩
        | true =>
          rw [resolveNames_cons_chain conf f p _ tmp hl hc] at hres
          rw [resolveNames_cons_chain conf f p _ tmp hl hc]
          cases ha : resolveNames conf f tmp.argv with
          | none => rw [ha] at hres; simp at hres
          | some a =>
            rw [ha] at hres
            cases hb : resolveNames conf f (pre' ++ nm :: post) with
            | none => rw [hb] at hres; simp at hres
            | some b =>
              rw [hb] at hres
              rw [ih pre' post b hb]
              exact hres

/-- Inserting a name absent from the configuration anywhere in a
reference list does not change a successful resolution (at the cost of
one extra step). -/
theorem resolveNames_insert_absent (conf : SmtpfdConf) {nm : String}
    (h : lookupFilter conf nm = none) :
    ∀ fuel pre post ms, resolveNames conf fuel (pre ++ post) = some ms →
      resolveNames conf (fuel + 1) (pre ++ nm :: post) = some ms := by
  intro fuel
  induction fuel with
  | zero =>
    intro pre post ms hres
    cases pre with
    | nil =>
      cases post with
      | nil =>
        rw [List.nil_append, resolveNames_nil, Option.some.injEq] at hres
        subst hres
        rw [List.nil_append, resolveNames_cons_absent conf 0 nm [] h, resolveNames_nil]
      | cons q post' =>
        rw [List.nil_append, resolveNames_zero] at hres
        exact absurd hres (by simp)
    | cons p pre' =>
      rw [List.cons_append, resolveNames_zero] at hres
      exact absurd hres (by simp)
  | succ f ih =>
    intro pre post ms hres
    cases pre with
    | nil =>
      rw [List.nil_append] at hres ⊢
      rw [resolveNames_cons_absent conf (f + 1) nm post h]
      exact hres
    | cons p pre' =>
      rw [List.cons_append] at hres ⊢
      cases hl : lookupFilter conf p with
      | none =>
        rw [resolveNames_cons_absent conf f p _ hl] at hres
        rw [resolveNames_cons_absent conf (f + 1) p _ hl]
        exact ih pre' post ms hres
      | some tmp =>
        cases hc : tmp.chain with
        | false =>
          rw [resolveNames_cons_leaf conf f p _ tmp hl hc] at hres
          rw [resolveNames_cons_leaf conf (f + 1) p _ tmp hl hc]
          rw [Option.map_eq_some'] at hres ⊢
          obtain ⟨b, hb, hms⟩ := hres
          exact ⟨b, ih pre' post b hb, hms⟩
        | true =>
          rw [resolveNames_cons_chain conf f p _ tmp hl hc] at hres
          rw [resolveNames_cons_chain conf (f + 1) p _ tmp hl hc]
          cases ha : resolveNames conf f tmp.argv with
          | none => rw [ha] at hres; simp at hres
          | some a =>
            rw [ha] at hres
            rw [resolveNames_mono_succ conf f tmp.argv a ha]
            cases hb : resolveNames conf f (pre' ++ post) with
            | none => rw [hb] at hres; simp at hres
            | some b =>
              rw [hb] at hres
              rw [ih pre' post b hb]
              exact hres

/-- C8: a chain member name absent from the configuration is silently
skipped by the resolver — no message is emitted for it, no error is
raised, and the delivered trace equals, exactly, that of the reference
list with the absent name removed: resolution continues with the
remaining members in order. -/
theorem C8_absent_name_skipped (conf : SmtpfdConf) (nm : String)
    (pre post : List String) (ms : List Msg) (h : lookupFilter conf nm = none) :
    resolvesTo conf (pre ++ nm :: post) ms ↔ resolvesTo conf (pre ++ post) ms := by
  constructor
  · rintro ⟨fuel, hf⟩
    exact ⟨fuel, resolveNames_skip_absent conf h fuel pre post ms hf⟩
  · rintro ⟨fuel, hf⟩
    exact ⟨fuel + 1, resolveNames_insert_absent conf h fuel pre post ms hf⟩

/-- C8 witness: in the `virus`/`all` configuration, a chain over
`["virus", "ghost"]` — with `ghost` absent — delivers exactly the trace
of `["virus"]`. -/
theorem C8_absent_name_skipped_witness :
    lookupFilter virusAllConf "ghost" = none ∧
    resolvesTo virusAllConf (["virus"] ++ "ghost" :: []) [Msg.reconfFilterNode "virus"] :=
  ⟨by decide,
   (C8_absent_name_skipped virusAllConf "ghost" ["virus"] []
     [Msg.reconfFilterNode "virus"] (by decide)).mpr ⟨1, by decide⟩⟩

/-- What the `OPT_NOACTION` (`-n`) branch of `main` prints: either
`"configuration OK"` on stderr, or the parsed configuration via
`config_print` when `OPT_VERBOSE` is also set. -/
inductive NoactionPrint where
  | confOK
  | configListing
deriving DecidableEq, Repr

/-- The outcome of the configuration phase of `main` (after the role
flags have dispatched, before privilege checks): the exit status if the
process exits in this phase, what the `-n` branch printed, and whether
execution continues towards the phase that spawns the frontend, engine
and filter children. -/
structure ConfigPhaseResult where
  exitCode : Option Nat
  printed : Option NoactionPrint
  reachesSpawn : Bool
deriving DecidableEq, Repr

/-- The configuration phase of `main`: a `parse_config` failure exits
with status 1; under `OPT_NOACTION` (`-n`) the process prints the parsed
configuration when `OPT_VERBOSE` (`-v`) is set and `"configuration OK"`
otherwise, then exits with status 0; without `-n` execution continues
towards the child-spawning phase. -/
def main_config_phase (noaction verbose : Bool) (parse : Option SmtpfdConf) :
    ConfigPhaseResult :=
  match parse with
  | none => { exitCode := some 1, printed := none, reachesSpawn := false }
  | some _ =>
    if noaction then
      { exitCode := some 0,
        printed := some (if verbose then NoactionPrint.configListing
                         else NoactionPrint.confOK),
        reachesSpawn := false }
    else
      { exitCode := none, printed := none, reachesSpawn := true }

/-- C9 counterexample: invoked with `-n -v` on a parsable configuration,
the process exits 0 and spawns no children, but prints the parsed
configuration (`config_print`), not `"configuration OK"`. -/
theorem C9_counterexample :
    (main_config_phase true true (some virusAllConf)).printed ≠
      some NoactionPrint.confOK ∧
    main_config_phase true true (some virusAllConf) =
      { exitCode := some 0, printed := some NoactionPrint.configListing,
        reachesSpawn := false } := by
  constructor <;> decide

/-- C9 (amended): with the `-n` flag, a successfully parsed configuration
makes the process print `"configuration OK"` — unless `-v` is also
given, in which case it prints the parsed configuration instead — and
exit with status 0 having spawned no children; a parse failure exits with
status 1 having spawned no children. -/
theorem C9_noaction (verbose : Bool) (c : SmtpfdConf) :
    main_config_phase true verbose none =
      { exitCode := some 1, printed := none, reachesSpawn := false } ∧
    main_config_phase true verbose (some c) =
      { exitCode := some 0,
        printed := some (if verbose then NoactionPrint.configListing
                         else NoactionPrint.confOK),
        reachesSpawn := false } :=
  ⟨rfl, rfl⟩

/-- The indices of the writes into the 7-element local array `rargv[]` in
`main`, in program order: `saved_argv0`, `"-F"`, optionally `"-d"`,
optionally `"-v"`, `"-s"`, `csock`, the `NULL` terminator for the
frontend vector; then the rewrite `rargv[1] = "-E"` and the engine
vector's terminator `rargv[argc - 3]`, where `argc` is the post-getopt
trailing-argument count. -/
def rargvWriteIndices (debug verbose : Bool) (argc : Int) : List Int :=
  let afterD : Int := if debug then 3 else 2
  let afterV : Int := if verbose then afterD + 1 else afterD
  ([0, 1]
    ++ (if debug then [2] else [])
    ++ (if verbose then [afterD] else [])
    ++ [afterV, afterV + 1, afterV + 2])
    ++ [1, argc - 3]

/-- C10 evaluation at the failing input: the engine spawn is reached only
with post-getopt `argc = 0` (any positive count exits through `usage`),
and there the terminator write `rargv[argc - 3]` uses index `-3` — an
out-of-bounds write below the array — while every other write of the
sequence lies within the bounds 0..6. -/
theorem C10_rargv_underflow (debug verbose : Bool) :
    (-3 : Int) ∈ rargvWriteIndices debug verbose 0 ∧
    (rargvWriteIndices debug verbose 0).filter
      (fun i => decide (i < 0 ∨ 6 < i)) = [-3] := by
  cases debug <;> cases verbose <;> exact ⟨by decide, by decide⟩

end Smtpfd
